import Mathlib

/-!
# Nexx-Auth: formal model of the storage and webhook layers

A shallow embedding of the authentication/licensing core of the Nexx-Auth
repository.  The two storage backends of `server/storage.ts` are modelled as
pure state-transformers:

* `MemStorage.*` — the in-memory `Map`-based backend (`class MemStorage`),
  which is the exported `storage` singleton.  JavaScript `Map`s preserve
  insertion order and have unique keys; they are modelled as lists, with
  `Map.get` as first-match lookup and in-place mutation as first-match update.
* `DatabaseStorage.*` — the drizzle/SQL backend (`class DatabaseStorage`),
  modelled sequentially over explicit table lists: `select().where(p)` is
  first-match (or filter) over the table, `update().set(u).where(p)` maps `u`
  over the matching rows and reports the matched-row count.

Dates are modelled as epoch milliseconds (`Nat`); the current instant is an
explicit `now` argument.  Collections of `MemStorage` that no claim touches
(applications) are omitted from the state.
-/

namespace NexxAuth

/-- A license key row (table `licenseKeys`).  `currentUsers` is a JS number
that the code only ever increments or decrements with a floor at 0, so it is
modelled as `Nat`.  `expiresAt` is always set on creation and is a `Date`
(always truthy in JS), modelled as plain epoch millis. -/
structure LicenseKey where
  id : Nat
  applicationId : Nat
  licenseKey : String
  maxUsers : Nat
  currentUsers : Nat
  validityDays : Nat
  description : Option String
  isActive : Bool
  createdAt : Nat
  expiresAt : Nat
  deriving Repr, DecidableEq

/-- An end-user row (table `appUsers`). -/
structure AppUser where
  id : Nat
  applicationId : Nat
  username : String
  password : String
  email : Option String
  hwid : Option String
  licenseKeyId : Option Nat
  expiresAt : Option Nat
  isActive : Bool
  isPaused : Bool
  lastLogin : Option Nat
  loginAttempts : Nat
  lastLoginAttempt : Option Nat
  createdAt : Nat
  deriving Repr, DecidableEq

/-- Input record for registration (`InsertAppUser` in `shared/schema.ts`):
all optional fields are `Option`s. -/
structure InsertAppUser where
  username : String
  password : String
  email : Option String
  hwid : Option String
  expiresAt : Option Nat
  licenseKey : Option String
  deriving Repr, DecidableEq

/-- A tenant (dashboard) user row (table `users`). -/
structure User where
  id : String
  email : Option String
  firstName : Option String
  lastName : Option String
  profileImageUrl : Option String
  role : String
  permissions : List String
  isActive : Bool
  createdAt : Nat
  updatedAt : Nat
  deriving Repr, DecidableEq

/-- Input record for `upsertUser`.  The drizzle schema file is not part of the
sources; the field set is the union of the fields `storage.ts` reads
(`id`, `email`, `firstName`, `lastName`, `profileImageUrl`, `createdAt`,
`updatedAt`) and the optional `role`/`permissions` that the shared zod schema
(`shared/schema.ts`) allows a caller to supply — `upsertUser` never reads the
latter two, which is exactly what claim C8 is about. -/
structure UpsertUser where
  id : String
  email : Option String
  firstName : Option String
  lastName : Option String
  profileImageUrl : Option String
  role : Option String
  permissions : Option (List String)
  createdAt : Option Nat
  updatedAt : Option Nat
  deriving Repr, DecidableEq

/-- A blacklist row (table `blacklist`); `applicationId` is nullable. -/
structure BlacklistEntry where
  id : Nat
  applicationId : Option Nat
  type : String
  value : String
  reason : Option String
  isActive : Bool
  createdAt : Nat
  deriving Repr, DecidableEq

/-- An activity-log row (table `activityLogs`); `applicationId` and
`appUserId` are nullable. -/
structure ActivityLog where
  id : Nat
  applicationId : Option Nat
  appUserId : Option Nat
  event : String
  ipAddress : Option String
  hwid : Option String
  userAgent : Option String
  success : Bool
  errorMessage : Option String
  createdAt : Nat
  deriving Repr, DecidableEq

/-- An active-session row (table `activeSessions`). -/
structure ActiveSession where
  id : Nat
  applicationId : Nat
  appUserId : Nat
  sessionToken : String
  hwid : Option String
  ipAddress : Option String
  userAgent : Option String
  location : Option String
  expiresAt : Option Nat
  isActive : Bool
  createdAt : Nat
  lastActivity : Nat
  deriving Repr, DecidableEq

/-- A webhook row (table `webhooks`). -/
structure Webhook where
  id : Nat
  userId : String
  url : String
  secret : Option String
  events : List String
  isActive : Bool
  deriving Repr, DecidableEq

/-! ## List helpers (JS `Map` / array semantics) -/

/-- Update the first element satisfying `p` (the semantics of mutating the
object returned by `Map.get` / `Array.find`: keys of a JS `Map` are unique,
so at most one element matches in any state reachable through the API). -/
def updateFirst (p : α → Bool) (f : α → α) : List α → List α
  | [] => []
  | x :: xs => if p x then f x :: xs else x :: updateFirst p f xs

/-- `Map.set k v` when `k` may already be present: replace the first binding
with key `k`, else append (JS `Map.set` keeps the original insertion position
on overwrite and appends fresh keys). -/
def setByKey (key : α → Bool) (v : α) : List α → List α
  | [] => [v]
  | x :: xs => if key x then v :: xs else x :: setByKey key v xs

/-! ## JS coercion helpers -/

/-- JS `x || null` on an optional string: the empty string is falsy and
collapses to `null`. -/
def jsOrNullStr : Option String → Option String
  | none => none
  | some s => if s = "" then none else some s

/-- The hard-coded owner account of `upsertUser`. -/
def ownerEmail : String := "mohitsindhu121@gmail.com"

/-- The fixed permission set granted to the owner account. -/
def ownerPermissions : List String :=
  ["edit_code", "manage_users", "manage_applications", "view_all_data",
   "delete_applications", "manage_permissions", "access_admin_panel"]

/-- `bcrypt.hash(password, 12)`.  Modelled from the spec: the Credential
Verifier is an external collaborator ("a pluggable one-way hash"); it is
modelled as an injective tagging function, which the claims never inspect. -/
def bcryptHash (password : String) : String := "$2b$12$" ++ password

/-! ## MemStorage (`class MemStorage`, the exported `storage` singleton) -/

/-- The `Map` fields of `MemStorage` that the claims touch, plus the shared
`nextId` counter (`applications` and `webhooks` are carried for completeness
of the webhook-facing claims). -/
structure MemState where
  users : List User
  licenseKeys : List LicenseKey
  appUsers : List AppUser
  webhooks : List Webhook
  blacklist : List BlacklistEntry
  activityLogs : List ActivityLog
  activeSessions : List ActiveSession
  nextId : Nat
  deriving Repr, DecidableEq

/-- The empty store a fresh `MemStorage` starts from (`nextId = 1`). -/
def MemState.empty : MemState :=
  { users := [], licenseKeys := [], appUsers := [], webhooks := [],
    blacklist := [], activityLogs := [], activeSessions := [], nextId := 1 }

/-- `MemStorage.getLicenseKeyByKey`: first value whose `licenseKey` string
matches (`Array.from(values()).find`). -/
def MemStorage.getLicenseKeyByKey (s : MemState) (licenseKey : String) :
    Option LicenseKey :=
  s.licenseKeys.find? (fun key => key.licenseKey == licenseKey)

/-- `MemStorage.validateLicenseKey`: looks the key up by string only, then
checks application match, `isActive` and expiry.  The guard
`key.expiresAt && key.expiresAt < new Date()` has an always-truthy `Date` on
the left, so it is just the comparison.  Note: no seat check. -/
def MemStorage.validateLicenseKey (s : MemState) (licenseKey : String)
    (applicationId : Nat) (now : Nat) : Option LicenseKey :=
  match MemStorage.getLicenseKeyByKey s licenseKey with
  | none => none
  | some key =>
    if key.applicationId != applicationId || !key.isActive then none
    else if key.expiresAt < now then none
    else some key

/-- `MemStorage.incrementLicenseUsage`: `Map.get`, then `key.currentUsers++`
on the stored object — unconditional, no seat-cap check. -/
def MemStorage.incrementLicenseUsage (s : MemState) (licenseKeyId : Nat) :
    Bool × MemState :=
  match s.licenseKeys.find? (fun k => k.id == licenseKeyId) with
  | none => (false, s)
  | some _ =>
    let lks := updateFirst (fun k => k.id == licenseKeyId)
      (fun k => { k with currentUsers := k.currentUsers + 1 }) s.licenseKeys
    (true, { s with licenseKeys := lks })

/-- `MemStorage.decrementLicenseUsage`: decrement floored at 0. -/
def MemStorage.decrementLicenseUsage (s : MemState) (licenseKeyId : Nat) :
    Bool × MemState :=
  match s.licenseKeys.find? (fun k => k.id == licenseKeyId) with
  | none => (false, s)
  | some _ =>
    let lks := updateFirst (fun k => k.id == licenseKeyId)
      (fun k => if k.currentUsers > 0
                then { k with currentUsers := k.currentUsers - 1 } else k)
      s.licenseKeys
    (true, { s with licenseKeys := lks })

/-- `MemStorage.createAppUser`: builds the user record (`licenseKeyId: null`,
plaintext password, `hwid || null`) and appends it under a fresh id. -/
def MemStorage.createAppUser (s : MemState) (applicationId : Nat)
    (iu : InsertAppUser) (now : Nat) : AppUser × MemState :=
  let user : AppUser :=
    { id := s.nextId
      email := iu.email
      isActive := true
      createdAt := now
      applicationId := applicationId
      expiresAt := iu.expiresAt
      licenseKeyId := none
      username := iu.username
      password := iu.password
      isPaused := false
      hwid := jsOrNullStr iu.hwid
      lastLogin := none
      loginAttempts := 0
      lastLoginAttempt := none }
  (user, { s with appUsers := s.appUsers ++ [user], nextId := s.nextId + 1 })

/-- `MemStorage.createAppUserWithLicense` delegates to `createAppUser`
unchanged: the license key is neither validated nor consumed. -/
def MemStorage.createAppUserWithLicense (s : MemState) (applicationId : Nat)
    (iu : InsertAppUser) (now : Nat) : AppUser × MemState :=
  MemStorage.createAppUser s applicationId iu now

/-- `MemStorage.deleteAppUser`: `Map.delete` — reports presence and removes
the binding.  No other collection is touched. -/
def MemStorage.deleteAppUser (s : MemState) (id : Nat) : Bool × MemState :=
  (s.appUsers.any (fun u => u.id == id),
   { s with appUsers := s.appUsers.eraseP (fun u => u.id == id) })

/-- `MemStorage.endSession`: find the first session with the token (`find`),
return `false` if absent, else flip its `isActive` in place. -/
def MemStorage.endSession (s : MemState) (sessionToken : String) :
    Bool × MemState :=
  match s.activeSessions.find? (fun x => x.sessionToken == sessionToken) with
  | none => (false, s)
  | some _ =>
    let ss := updateFirst (fun x => x.sessionToken == sessionToken)
      (fun x => { x with isActive := false }) s.activeSessions
    (true, { s with activeSessions := ss })

/-- `MemStorage.getActiveSessions`: sessions of the application that are
still active. -/
def MemStorage.getActiveSessions (s : MemState) (applicationId : Nat) :
    List ActiveSession :=
  s.activeSessions.filter
    (fun x => x.applicationId == applicationId && x.isActive)

/-- `MemStorage.upsertUser`: builds the stored record, granting
`role: 'owner'` and the fixed permission set exactly for `ownerEmail`;
any `role`/`permissions` on the input are never read. -/
def MemStorage.upsertUser (s : MemState) (u : UpsertUser) (now : Nat) :
    User × MemState :=
  let user : User :=
    { id := u.id
      email := jsOrNullStr u.email
      firstName := jsOrNullStr u.firstName
      lastName := jsOrNullStr u.lastName
      profileImageUrl := jsOrNullStr u.profileImageUrl
      role := if u.email == some ownerEmail then "owner" else "user"
      permissions := if u.email == some ownerEmail then ownerPermissions else []
      isActive := true
      createdAt := u.createdAt.getD now
      updatedAt := now }
  (user, { s with users := setByKey (fun x => x.id == u.id) user s.users })

/-- `MemStorage.checkBlacklist`: first entry matching the exact
`(applicationId, type, value)` triple (no `isActive` test in this backend). -/
def MemStorage.checkBlacklist (s : MemState) (applicationId : Nat)
    (type : String) (value : String) : Option BlacklistEntry :=
  s.blacklist.find? (fun e =>
    e.applicationId == some applicationId && e.type == type && e.value == value)

/-- `isBlacklisted` of the second in-memory storage generation
(`src/unnamed/part_001`): `some` over the same exact-triple predicate. -/
def MemStorage.isBlacklisted (entries : List BlacklistEntry)
    (applicationId : Nat) (type : String) (value : String) : Bool :=
  entries.any (fun e =>
    e.applicationId == some applicationId && e.type == type && e.value == value)

/-- Stable insertion of a log into a list sorted newest-first: the JS
comparator is `(a, b) => b.createdAt.getTime() - a.createdAt.getTime()`. -/
def insertDescByCreatedAt (x : ActivityLog) : List ActivityLog → List ActivityLog
  | [] => [x]
  | y :: ys =>
    if x.createdAt ≤ y.createdAt then y :: insertDescByCreatedAt x ys
    else x :: y :: ys

/-- `Array.prototype.sort` (stable, per the comparator above) as insertion
sort. -/
def sortDescByCreatedAt : List ActivityLog → List ActivityLog
  | [] => []
  | x :: xs => insertDescByCreatedAt x (sortDescByCreatedAt xs)

/-- `MemStorage.getActivityLogs`: filter by application, sort newest-first,
truncate to `limit`. -/
def MemStorage.getActivityLogs (s : MemState) (applicationId : Nat)
    (limit : Nat) : List ActivityLog :=
  (sortDescByCreatedAt
    (s.activityLogs.filter (fun l => l.applicationId == some applicationId))).take
    limit

/-- `MemStorage.getActivityLogs` with the `limit` argument omitted: the
declared default is `100`. -/
def MemStorage.getActivityLogsDefault (s : MemState) (applicationId : Nat) :
    List ActivityLog :=
  MemStorage.getActivityLogs s applicationId 100

/-! ## DatabaseStorage (`class DatabaseStorage`), sequential semantics

Each method is a pure function of the drizzle tables it touches; `db` itself
is external, so `select`/`update`/`insert`/`delete` are given their standard
sequential SQL semantics over the table lists. -/

/-- `DatabaseStorage.incrementLicenseUsage`: read the row, then
`update ... set currentUsers = read + 1 where id = ...` — a read-then-write
with no seat-cap check; returns `rowCount > 0`. -/
def DatabaseStorage.incrementLicenseUsage (tbl : List LicenseKey)
    (licenseKeyId : Nat) : Bool × List LicenseKey :=
  match tbl.find? (fun k => k.id == licenseKeyId) with
  | none => (false, tbl)
  | some license =>
    (decide (0 < tbl.countP (fun k => k.id == licenseKeyId)),
     tbl.map (fun r => if r.id == licenseKeyId
                       then { r with currentUsers := license.currentUsers + 1 }
                       else r))

/-- `DatabaseStorage.decrementLicenseUsage`: same shape with
`Math.max(0, n - 1)`. -/
def DatabaseStorage.decrementLicenseUsage (tbl : List LicenseKey)
    (licenseKeyId : Nat) : Bool × List LicenseKey :=
  match tbl.find? (fun k => k.id == licenseKeyId) with
  | none => (false, tbl)
  | some license =>
    (decide (0 < tbl.countP (fun k => k.id == licenseKeyId)),
     tbl.map (fun r => if r.id == licenseKeyId
                       then { r with currentUsers := license.currentUsers - 1 }
                       else r))

/-- `DatabaseStorage.validateLicenseKey`: select by
`licenseKey ∧ applicationId ∧ isActive`, then reject on expiry
(`now > expiresAt`) and on `currentUsers >= maxUsers`. -/
def DatabaseStorage.validateLicenseKey (tbl : List LicenseKey)
    (licenseKey : String) (applicationId : Nat) (now : Nat) :
    Option LicenseKey :=
  match tbl.find? (fun k =>
      k.licenseKey == licenseKey && k.applicationId == applicationId
        && k.isActive) with
  | none => none
  | some license =>
    if now > license.expiresAt then none
    else if license.currentUsers ≥ license.maxUsers then none
    else some license

/-- The tables `DatabaseStorage.createAppUserWithLicense` touches, plus the
database's id sequence. -/
structure DBState where
  licenseKeys : List LicenseKey
  appUsers : List AppUser
  nextId : Nat
  deriving Repr, DecidableEq

/-- `DatabaseStorage.createAppUserWithLicense`: validate the key (the `!` on
`insertUser.licenseKey!` asserts it non-null; an absent key is the empty
string), throw `"Invalid or expired license key"` on failure, otherwise
insert the user (hashed password, expiry copied from the license) and then
increment the license usage. -/
def DatabaseStorage.createAppUserWithLicense (s : DBState)
    (applicationId : Nat) (iu : InsertAppUser) (now : Nat) :
    Except String AppUser × DBState :=
  match DatabaseStorage.validateLicenseKey s.licenseKeys
      (iu.licenseKey.getD "") applicationId now with
  | none => (.error "Invalid or expired license key", s)
  | some licenseKey =>
    let user : AppUser :=
      { id := s.nextId
        applicationId := applicationId
        licenseKeyId := some licenseKey.id
        username := iu.username
        password := bcryptHash iu.password
        email := jsOrNullStr iu.email
        hwid := jsOrNullStr iu.hwid
        expiresAt := some licenseKey.expiresAt
        isActive := true
        isPaused := false
        lastLogin := none
        loginAttempts := 0
        lastLoginAttempt := none
        createdAt := now }
    let lks :=
      (DatabaseStorage.incrementLicenseUsage s.licenseKeys licenseKey.id).2
    (.ok user,
     { licenseKeys := lks, appUsers := s.appUsers ++ [user],
       nextId := s.nextId + 1 })

/-- `DatabaseStorage.deleteAppUser`: SQL `DELETE ... WHERE id = ...`; returns
`rowCount > 0`.  Only the `appUsers` table is touched. -/
def DatabaseStorage.deleteAppUser (tbl : List AppUser) (id : Nat) :
    Bool × List AppUser :=
  (decide (0 < tbl.countP (fun u => u.id == id)),
   tbl.filter (fun u => !(u.id == id)))

/-- `DatabaseStorage.endSession`: `UPDATE activeSessions SET isActive = false
WHERE sessionToken = ...`; returns `rowCount > 0`. -/
def DatabaseStorage.endSession (tbl : List ActiveSession)
    (sessionToken : String) : Bool × List ActiveSession :=
  (decide (0 < tbl.countP (fun x => x.sessionToken == sessionToken)),
   tbl.map (fun x => if x.sessionToken == sessionToken
                     then { x with isActive := false } else x))

/-- `DatabaseStorage.getActiveSessions`: select by application and
`isActive`. -/
def DatabaseStorage.getActiveSessions (tbl : List ActiveSession)
    (applicationId : Nat) : List ActiveSession :=
  tbl.filter (fun x => x.applicationId == applicationId && x.isActive)

/-- `DatabaseStorage.checkBlacklist`: select by the exact triple plus
`isActive`. -/
def DatabaseStorage.checkBlacklist (tbl : List BlacklistEntry)
    (applicationId : Nat) (type : String) (value : String) :
    Option BlacklistEntry :=
  tbl.find? (fun e =>
    e.applicationId == some applicationId && e.type == type
      && e.value == value && e.isActive)

/-- `DatabaseStorage.upsertUser`: insert with `onConflictDoUpdate` on the id;
both the insert values and the conflict `set` clause carry the
owner-or-default role and permissions, never the input's. -/
def DatabaseStorage.upsertUser (tbl : List User) (u : UpsertUser) (now : Nat) :
    User × List User :=
  let role := if u.email == some ownerEmail then "owner" else "user"
  let perms := if u.email == some ownerEmail then ownerPermissions else []
  match tbl.find? (fun x => x.id == u.id) with
  | none =>
    let user : User :=
      { id := u.id
        email := u.email
        firstName := u.firstName
        lastName := u.lastName
        profileImageUrl := u.profileImageUrl
        role := role
        permissions := perms
        isActive := true
        createdAt := u.createdAt.getD now
        updatedAt := u.updatedAt.getD now }
    (user, tbl ++ [user])
  | some old =>
    let user : User :=
      { old with
        email := u.email
        firstName := u.firstName
        lastName := u.lastName
        profileImageUrl := u.profileImageUrl
        role := role
        permissions := perms
        isActive := true
        updatedAt := now }
    (user, tbl.map (fun x => if x.id == u.id then user else x))

/-! ## Webhook service (`server/webhookService.ts`)

JavaScript objects are modelled as ordered field lists and `JSON.stringify`
is reproduced literally (property insertion order, `undefined` properties
dropped, standard string escaping, no spaces in compact mode, two-space gap
for `JSON.stringify(x, null, 2)`). -/

/-- A JSON value (JS object fields keep insertion order). -/
inductive Json where
  | null : Json
  | bool : Bool → Json
  | num : Int → Json
  | str : String → Json
  | arr : List Json → Json
  | obj : List (String × Json) → Json

/-- Lower-case hex digit. -/
def hexDigit (n : Nat) : String :=
  (["0", "1", "2", "3", "4", "5", "6", "7", "8", "9",
    "a", "b", "c", "d", "e", "f"].getD n "0")

/-- `JSON.stringify` escaping of one character of a string value. -/
def escapeChar (c : Char) : String :=
  if c = Char.ofNat 34 then "\\\""
  else if c = Char.ofNat 92 then "\\\\"
  else if c = Char.ofNat 8 then "\\b"
  else if c = Char.ofNat 9 then "\\t"
  else if c = Char.ofNat 10 then "\\n"
  else if c = Char.ofNat 12 then "\\f"
  else if c = Char.ofNat 13 then "\\r"
  else if c.toNat < 32 then
    "\\u00" ++ hexDigit (c.toNat / 16) ++ hexDigit (c.toNat % 16)
  else String.singleton c

/-- A JSON string literal: quoted and escaped. -/
def jsonQuote (s : String) : String :=
  "\"" ++ String.join (s.toList.map escapeChar) ++ "\""

mutual

/-- `JSON.stringify(x)` (compact form). -/
def Json.stringify : Json → String
  | .null => "null"
  | .bool b => if b then "true" else "false"
  | .num n => toString n
  | .str s => jsonQuote s
  | .arr xs => "[" ++ Json.stringifyItems xs ++ "]"
  | .obj fs => "\x7b" ++ Json.stringifyProps fs ++ "\x7d"

/-- Comma-joined array items. -/
def Json.stringifyItems : List Json → String
  | [] => ""
  | [x] => Json.stringify x
  | x :: y :: xs => Json.stringify x ++ "," ++ Json.stringifyItems (y :: xs)

/-- Comma-joined object properties. -/
def Json.stringifyProps : List (String × Json) → String
  | [] => ""
  | [(k, v)] => jsonQuote k ++ ":" ++ Json.stringify v
  | (k, v) :: y :: xs =>
    jsonQuote k ++ ":" ++ Json.stringify v ++ "," ++ Json.stringifyProps (y :: xs)

end

mutual

/-- `JSON.stringify(x, null, 2)` at the given current indentation. -/
def Json.stringifyInd (ind : String) : Json → String
  | .null => "null"
  | .bool b => if b then "true" else "false"
  | .num n => toString n
  | .str s => jsonQuote s
  | .arr [] => "[]"
  | .arr (x :: xs) =>
    "[\n" ++ Json.stringifyIndItems (ind ++ "  ") (x :: xs) ++ "\n" ++ ind ++ "]"
  | .obj [] => "\x7b\x7d"
  | .obj (f :: fs) =>
    "\x7b\n" ++ Json.stringifyIndProps (ind ++ "  ") (f :: fs) ++ "\n" ++ ind
      ++ "\x7d"

/-- Indented array items, one per line. -/
def Json.stringifyIndItems (ind : String) : List Json → String
  | [] => ""
  | [x] => ind ++ Json.stringifyInd ind x
  | x :: y :: xs =>
    ind ++ Json.stringifyInd ind x ++ ",\n" ++ Json.stringifyIndItems ind (y :: xs)

/-- Indented object properties, one per line (`"key": value`). -/
def Json.stringifyIndProps (ind : String) : List (String × Json) → String
  | [] => ""
  | [(k, v)] => ind ++ jsonQuote k ++ ": " ++ Json.stringifyInd ind v
  | (k, v) :: y :: xs =>
    ind ++ jsonQuote k ++ ": " ++ Json.stringifyInd ind v ++ ",\n"
      ++ Json.stringifyIndProps ind (y :: xs)

end

/-- `JSON.stringify(x, null, 2)`. -/
def Json.stringifyIndent2 (j : Json) : String := Json.stringifyInd "" j

/-- JS truthiness of a JSON value (`null`, `false`, `0`, `""` are falsy). -/
def jsTruthyJson : Json → Bool
  | .null => false
  | .bool b => b
  | .num n => n != 0
  | .str s => s != ""
  | .arr _ => true
  | .obj _ => true

/-- The `user_data` sub-object of a webhook payload. -/
structure UserData where
  id : Nat
  username : String
  email : Option String
  hwid : Option String
  ip_address : Option String
  user_agent : Option String
  location : Option String
  deriving Repr, DecidableEq

/-- `WebhookPayload` (webhookService.ts): `Option` values model fields that
may be `undefined` and are then dropped by `JSON.stringify`. -/
structure WebhookPayload where
  event : String
  timestamp : String
  application_id : Nat
  user_data : Option UserData
  metadata : Option Json
  success : Bool
  error_message : Option String

/-- Optional string property (dropped when `undefined`). -/
def optStrField (k : String) : Option String → List (String × Json)
  | none => []
  | some v => [(k, Json.str v)]

/-- `user_data` as a JSON object, in the insertion order of `logAndNotify`. -/
def UserData.toJson (u : UserData) : Json :=
  Json.obj ([("id", Json.num u.id), ("username", Json.str u.username)]
    ++ optStrField "email" u.email
    ++ optStrField "hwid" u.hwid
    ++ optStrField "ip_address" u.ip_address
    ++ optStrField "user_agent" u.user_agent
    ++ optStrField "location" u.location)

/-- The payload as the JSON object `JSON.stringify` sees, in interface
order, `undefined` properties dropped. -/
def WebhookPayload.toJson (p : WebhookPayload) : Json :=
  Json.obj ([("event", Json.str p.event),
             ("timestamp", Json.str p.timestamp),
             ("application_id", Json.num (p.application_id : Int))]
    ++ (match p.user_data with
        | none => []
        | some u => [("user_data", u.toJson)])
    ++ (match p.metadata with
        | none => []
        | some m => [("metadata", m)])
    ++ [("success", Json.bool p.success)]
    ++ optStrField "error_message" p.error_message)

/-- Lookup in a JS string-keyed record with `|| default` fallback. -/
def lookupOrD (m : List (String × String)) (k dflt : String) : String :=
  match m.find? (fun kv => kv.1 == k) with
  | some kv => kv.2
  | none => dflt

/-- JS `x || dflt` on an optional string (empty string is falsy). -/
def jsOrD (o : Option String) (dflt : String) : String :=
  match jsOrNullStr o with
  | none => dflt
  | some s => s

/-- First-occurrence-only `String.replace` with single-character pattern
(the JS `replace` with a string pattern replaces only the first match). -/
def replaceFirstChar (c r : Char) : List Char → List Char
  | [] => []
  | x :: xs => if x = c then r :: xs else x :: replaceFirstChar c r xs

/-- `s.replace(c, r)` for one-character pattern and replacement. -/
def jsReplaceFirst (s : String) (c r : Char) : String :=
  String.mk (replaceFirstChar c r s.toList)

/-- `s.toUpperCase()` (ASCII; the event names are ASCII snake_case). -/
def jsToUpper (s : String) : String := String.mk (s.toList.map Char.toUpper)

/-- Leading-segment test on character lists. -/
def charsHavePre : List Char → List Char → Bool
  | [], _ => true
  | _ :: _, [] => false
  | c :: cs, x :: xs => c == x && charsHavePre cs xs

/-- Substring search on character lists. -/
def charsContain (pat : List Char) : List Char → Bool
  | [] => pat.isEmpty
  | x :: xs => charsHavePre pat (x :: xs) || charsContain pat xs

/-- JS `s.includes(sub)`. -/
def strContains (s sub : String) : Bool := charsContain sub.toList s.toList

/-- The `eventEmoji` table of `formatDiscordWebhook`. -/
def discordEventEmoji : List (String × String) :=
  [("user_login", "🔐"), ("login_failed", "❌"), ("user_register", "👤"),
   ("user_logout", "👋"), ("session_expired", "⏰"), ("hwid_mismatch", "🔒"),
   ("version_mismatch", "🔄"), ("account_disabled", "🚫"),
   ("account_expired", "📅")]

/-- `formatDiscordWebhook`: the Discord-shaped body (an `embeds` object). -/
def formatDiscordWebhook (payload : WebhookPayload) : Json :=
  let color : Int := if payload.success then 65280 else 16711680
  let title := lookupOrD discordEventEmoji payload.event "📋" ++ " "
    ++ jsToUpper (jsReplaceFirst payload.event '_' ' ')
  let userFields : List Json :=
    match payload.user_data with
    | none => []
    | some u =>
      [Json.obj [("name", Json.str "User Info"),
        ("value", Json.str ("**Username:** " ++ u.username
          ++ "\n**Email:** " ++ jsOrD u.email "N/A"
          ++ "\n**IP:** " ++ jsOrD u.ip_address "N/A")),
        ("inline", Json.bool true)]]
  let hwidFields : List Json :=
    match payload.user_data with
    | none => []
    | some u =>
      match jsOrNullStr u.hwid with
      | none => []
      | some h =>
        [Json.obj [("name", Json.str "Hardware ID"),
          ("value", Json.str ("`" ++ h ++ "`")),
          ("inline", Json.bool true)]]
  let errorFields : List Json :=
    match jsOrNullStr payload.error_message with
    | none => []
    | some e =>
      [Json.obj [("name", Json.str "Error"), ("value", Json.str e),
        ("inline", Json.bool false)]]
  let metadataFields : List Json :=
    match payload.metadata with
    | none => []
    | some m =>
      if jsTruthyJson m then
        [Json.obj [("name", Json.str "Additional Info"),
          ("value", Json.str (Json.stringifyIndent2 m)),
          ("inline", Json.bool false)]]
      else []
  Json.obj [("embeds", Json.arr
    [Json.obj [("title", Json.str title),
      ("description", Json.str ("Application ID: "
        ++ toString payload.application_id)),
      ("color", Json.num color),
      ("fields", Json.arr
        (userFields ++ hwidFields ++ errorFields ++ metadataFields)),
      ("timestamp", Json.str payload.timestamp),
      ("footer", Json.obj [("text", Json.str ("NexxAuth • "
        ++ (if payload.success then "Success" else "Failed")))])]])]

/-- The `eventEmoji` table of `formatSlackWebhook`. -/
def slackEventEmoji : List (String × String) :=
  [("user_login", ":lock:"), ("login_failed", ":x:"),
   ("user_register", ":bust_in_silhouette:"), ("user_logout", ":wave:"),
   ("session_expired", ":alarm_clock:"), ("hwid_mismatch", ":locked:"),
   ("version_mismatch", ":arrows_counterclockwise:"),
   ("account_disabled", ":no_entry_sign:"),
   ("account_expired", ":calendar:")]

/-- Days from 1970-01-01 of a proleptic-Gregorian civil date
(standard civil-from-days inverse; all intermediate values are nonnegative
for post-1582 dates, so the division convention is immaterial). -/
def daysFromCivil (y m d : Int) : Int :=
  let y2 := if m ≤ 2 then y - 1 else y
  let era := (if 0 ≤ y2 then y2 else y2 - 399) / 400
  let yoe := y2 - era * 400
  let mp := if 2 < m then m - 3 else m + 9
  let doy := (153 * mp + 2) / 5 + d - 1
  let doe := yoe * 365 + yoe / 4 - yoe / 100 + doy
  era * 146097 + doe - 719468

/-- Modelled from the spec: `new Date(timestamp).getTime()` on the
fixed-width `toISOString` format `YYYY-MM-DDTHH:MM:SS.mmmZ` that the
dispatcher itself produced (§4.4 generic payload carries an ISO-8601
timestamp); `Date` is a JS built-in, not repository code. -/
def dateParseMillisIso (s : String) : Int :=
  let cs := s.toList
  let num : Nat → Nat → Nat := fun i len =>
    ((cs.drop i).take len).foldl (fun a c => a * 10 + (c.toNat - 48)) 0
  let days := daysFromCivil (num 0 4) (num 5 2) (num 8 2)
  days * 86400000
    + (((num 11 2) * 3600000 + (num 14 2) * 60000 + (num 17 2) * 1000
        + (num 20 3) : Nat) : Int)

/-- `Math.floor(x / 1000)` on a real-number quotient is floor division. -/
def jsFloorDivThousand (x : Int) : Int := Int.fdiv x 1000

/-- `formatSlackWebhook`: the Slack-shaped body (an `attachments` object). -/
def formatSlackWebhook (payload : WebhookPayload) : Json :=
  let color := if payload.success then "good" else "danger"
  let title := lookupOrD slackEventEmoji payload.event ":clipboard:" ++ " "
    ++ jsToUpper (jsReplaceFirst payload.event '_' ' ')
  let appField : List Json :=
    [Json.obj [("title", Json.str "Application ID"),
      ("value", Json.str (toString payload.application_id)),
      ("short", Json.bool true)]]
  let userField : List Json :=
    match payload.user_data with
    | none => []
    | some u =>
      [Json.obj [("title", Json.str "Username"),
        ("value", Json.str u.username), ("short", Json.bool true)]]
  let emailField : List Json :=
    match payload.user_data with
    | none => []
    | some u =>
      match jsOrNullStr u.email with
      | none => []
      | some e =>
        [Json.obj [("title", Json.str "Email"), ("value", Json.str e),
          ("short", Json.bool true)]]
  let ipField : List Json :=
    match payload.user_data with
    | none => []
    | some u =>
      match jsOrNullStr u.ip_address with
      | none => []
      | some ip =>
        [Json.obj [("title", Json.str "IP Address"), ("value", Json.str ip),
          ("short", Json.bool true)]]
  let errorField : List Json :=
    match jsOrNullStr payload.error_message with
    | none => []
    | some e =>
      [Json.obj [("title", Json.str "Error"), ("value", Json.str e),
        ("short", Json.bool false)]]
  Json.obj [("attachments", Json.arr
    [Json.obj [("color", Json.str color),
      ("title", Json.str title),
      ("fields", Json.arr
        (appField ++ userField ++ emailField ++ ipField ++ errorField)),
      ("timestamp", Json.num
        (jsFloorDivThousand (dateParseMillisIso payload.timestamp))),
      ("footer", Json.str "NexxAuth")]])]

/-- Modelled from the spec: hex HMAC-SHA256
(`crypto.createHmac('sha256', secret).update(payload).digest('hex')` — a
Node built-in, not repository code).  The spec uses it only as a
deterministic keyed digest, so it is modelled as an injective tagging
function. -/
def hmacSha256Hex (key msg : String) : String :=
  "hmac-sha256:" ++ key ++ ":" ++ msg

/-- `WebhookService.generateSignature(payload, secret)`. -/
def generateSignature (payload secret : String) : String :=
  hmacSha256Hex secret payload

/-- The outbound HTTP request `sendWebhook` hands to `fetch`. -/
structure SentRequest where
  url : String
  headers : List (String × String)
  body : String

/-- The deterministic part of `WebhookService.sendWebhook` (lines 142-162):
serialize the payload, attach the signature header when a secret is
configured (computed over `payloadString`), and pick the body by
URL-substring matching. -/
def buildRequest (webhook : Webhook) (payload : WebhookPayload) : SentRequest :=
  let payloadString := Json.stringify payload.toJson
  let baseHeaders := [("Content-Type", "application/json"),
                      ("User-Agent", "NexxAuth-Webhook/1.0")]
  let headers :=
    match jsOrNullStr webhook.secret with
    | none => baseHeaders
    | some sec =>
      baseHeaders
        ++ [("X-Webhook-Signature",
             "sha256=" ++ generateSignature payloadString sec)]
  let body :=
    if strContains webhook.url "discord.com"
        || strContains webhook.url "discordapp.com" then
      Json.stringify (formatDiscordWebhook payload)
    else if strContains webhook.url "slack.com" then
      Json.stringify (formatSlackWebhook payload)
    else payloadString
  { url := webhook.url, headers := headers, body := body }

/-- Header lookup in a sent request. -/
def lookupHeader (hs : List (String × String)) (k : String) : Option String :=
  (hs.find? (fun kv => kv.1 == k)).map (fun kv => kv.2)

/-- The outcome of the `fetch` call: a response with an HTTP status, or a
rejected promise (transport error). -/
inductive FetchResult where
  | resp (status : Nat) (statusText : String)
  | fail (err : String)
  deriving Repr, DecidableEq

/-- WHATWG `Response.ok`: status in the 2xx range. -/
def responseOk (status : Nat) : Bool := 200 ≤ status && status ≤ 299

/-- The `try` block of `sendWebhook`: builds the request, awaits the fetch
outcome (a rejection re-throws), returns `false` on a non-2xx response and
`true` otherwise. -/
def sendWebhookTry (webhook : Webhook) (payload : WebhookPayload)
    (fr : FetchResult) : Except String Bool :=
  let _request := buildRequest webhook payload
  match fr with
  | .fail e => .error e
  | .resp status _ => if !responseOk status then .ok false else .ok true

/-- `WebhookService.sendWebhook`: the `try` block under its catch-all, which
logs and returns `false`. -/
def sendWebhookRun (webhook : Webhook) (payload : WebhookPayload)
    (fr : FetchResult) : Except String Bool :=
  match sendWebhookTry webhook payload fr with
  | .error _ => .ok false
  | .ok b => .ok b

/-- The argument record of `storage.createActivityLog` as built by
`logAndNotify`. -/
structure InsertActivityLog where
  applicationId : Option Nat
  appUserId : Option Nat
  event : String
  ipAddress : Option String
  hwid : Option String
  userAgent : Option String
  metadata : Option Json
  success : Bool
  errorMessage : Option String

/-- The asynchronous collaborators of `logAndNotify`: the storage calls
(whose promises may reject — `DatabaseStorage` is backed by a database) and
the per-webhook fetch outcome, plus the sampled clock. -/
structure NotifyEnv where
  createActivityLog : InsertActivityLog → Except String Unit
  getUserWebhooks : String → Except String (List Webhook)
  fetchFor : Nat → FetchResult
  nowIso : String

/-- The optional `options` argument of `logAndNotify`. -/
structure LogOptions where
  success : Option Bool
  errorMessage : Option String
  metadata : Option Json

/-- `WebhookService.logAndNotify`: writes the activity log under a
swallowing catch, then — under a second swallowing catch — selects the
active subscribed webhooks, builds the payload once, and fires
`sendWebhook` at each of them via `Promise.all`. -/
def logAndNotify (env : NotifyEnv) (userId : String) (applicationId : Nat)
    (event : String) (userData : Option UserData)
    (options : Option LogOptions) : Except String Unit :=
  let success := (options.bind (fun o => o.success)).getD true
  let errorMessage := options.bind (fun o => o.errorMessage)
  let metadata := options.bind (fun o => o.metadata)
  let _logOutcome : Unit :=
    match env.createActivityLog
        { applicationId := some applicationId
          appUserId := userData.map (fun u => u.id)
          event := event
          ipAddress := userData.bind (fun u => u.ip_address)
          hwid := userData.bind (fun u => u.hwid)
          userAgent := userData.bind (fun u => u.user_agent)
          metadata := metadata
          success := success
          errorMessage := errorMessage } with
    | .error _ => ()
    | .ok _ => ()
  match env.getUserWebhooks userId with
  | .error _ => .ok ()
  | .ok webhooks =>
    let activeWebhooks := webhooks.filter
      (fun w => w.isActive && w.events.contains event)
    if activeWebhooks.isEmpty then .ok ()
    else
      let payload : WebhookPayload :=
        { event := event
          timestamp := env.nowIso
          application_id := applicationId
          user_data := userData
          metadata := metadata
          success := success
          error_message := errorMessage }
      let results := activeWebhooks.map
        (fun w => sendWebhookRun w payload (env.fetchFor w.id))
      if results.any (fun r => match r with
          | .error _ => true
          | .ok _ => false) then
        .ok ()
      else .ok ()

/-! ## Concrete instances used by counterexamples and witnesses -/

/-- A license key whose seats are exhausted (`currentUsers = maxUsers = 1`),
active and unexpired at instants before 1000. -/
def exhaustedKey : LicenseKey :=
  { id := 1, applicationId := 1, licenseKey := "KEY-1", maxUsers := 1,
    currentUsers := 1, validityDays := 30, description := none,
    isActive := true, createdAt := 0, expiresAt := 1000 }

/-- The same key with no seat consumed yet. -/
def freshKey : LicenseKey := { exhaustedKey with currentUsers := 0 }

/-- A store holding just the exhausted key. -/
def memExhausted : MemState := { MemState.empty with licenseKeys := [exhaustedKey] }

/-- A registration input that supplies the license key `"KEY-1"`. -/
def bobInsert : InsertAppUser :=
  { username := "bob", password := "pw2", email := none, hwid := none,
    expiresAt := none, licenseKey := some "KEY-1" }

/-- An end user holding the seat of license key 1. -/
def seatHolder : AppUser :=
  { id := 2, applicationId := 1, username := "alice", password := "pw1",
    email := none, hwid := none, licenseKeyId := some 1,
    expiresAt := some 1000, isActive := true, isPaused := false,
    lastLogin := none, loginAttempts := 0, lastLoginAttempt := none,
    createdAt := 0 }

/-- A store where `seatHolder` occupies the (exhausted) key's single seat. -/
def memSeatHeld : MemState :=
  { MemState.empty with licenseKeys := [exhaustedKey], appUsers := [seatHolder] }

/-- A database state with one free seat on `freshKey`. -/
def dbFresh : DBState := { licenseKeys := [freshKey], appUsers := [], nextId := 7 }

/-- An active session for application 1. -/
def sessA : ActiveSession :=
  { id := 1, applicationId := 1, appUserId := 2, sessionToken := "tok-1",
    hwid := none, ipAddress := none, userAgent := none, location := none,
    expiresAt := none, isActive := true, createdAt := 0, lastActivity := 0 }

/-- A store with the single session `sessA`. -/
def memSess : MemState := { MemState.empty with activeSessions := [sessA] }

/-- A second session of the same application, different token. -/
def sessC : ActiveSession := { sessA with id := 9, sessionToken := "tok-2" }

/-- A store with two sessions of application 1. -/
def memSess2 : MemState :=
  { MemState.empty with activeSessions := [sessA, sessC] }

/-- A blacklist entry recorded for application 2 (not 1). -/
def blkOther : BlacklistEntry :=
  { id := 1, applicationId := some 2, type := "ip", value := "1.2.3.4",
    reason := none, isActive := true, createdAt := 0 }

/-- Activity logs: two for application 1 (older `logA`, newer `logB`) and one
for application 2. -/
def logA : ActivityLog :=
  { id := 1, applicationId := some 1, appUserId := none, event := "user_login",
    ipAddress := none, hwid := none, userAgent := none, success := true,
    errorMessage := none, createdAt := 10 }

/-- The newer application-1 log. -/
def logB : ActivityLog := { logA with id := 2, createdAt := 20 }

/-- A log of another application. -/
def logC : ActivityLog := { logA with id := 3, applicationId := some 2, createdAt := 30 }

/-- A store holding the three logs. -/
def memLogs : MemState :=
  { MemState.empty with activityLogs := [logA, logB, logC] }

/-- A webhook with a secret whose destination is a Discord URL. -/
def discordHook : Webhook :=
  { id := 1, userId := "u1", url := "https://discord.com/api/webhooks/1/x",
    secret := some "s3cret", events := ["user_login"], isActive := true }

/-- A webhook with a secret and an unrecognized destination host. -/
def genericHook : Webhook :=
  { id := 2, userId := "u1", url := "https://example.com/hook",
    secret := some "s3cret", events := ["user_login"], isActive := true }

/-- A minimal successful-login payload. -/
def loginPayload : WebhookPayload :=
  { event := "user_login", timestamp := "2024-01-01T00:00:00.000Z",
    application_id := 1, user_data := none, metadata := none,
    success := true, error_message := none }

/-! # Theorems

First generic list lemmas, then one theorem per claim (with the
counterexamples and witnesses the claims call for). -/

theorem find?_updateFirst_self (p : α → Bool) (f : α → α) (l : List α)
    (hpf : ∀ x, p x = true → p (f x) = true) :
    ∀ x, l.find? p = some x → (updateFirst p f l).find? p = some (f x) := by
  induction l with
  | nil => intro x h; simp [List.find?] at h
  | cons y ys ih =>
    intro x h
    by_cases hy : p y = true
    · rw [List.find?_cons_of_pos _ hy] at h
      cases h
      simp only [updateFirst, if_pos hy]
      exact List.find?_cons_of_pos _ (hpf _ hy)
    · rw [List.find?_cons_of_neg _ hy] at h
      simp only [updateFirst, if_neg hy]
      rw [List.find?_cons_of_neg _ hy]
      exact ih x h

theorem updateFirst_matches (p q : α → Bool) (f : α → α) (l : List α)
    (hq : ∀ x, p x = true → q (f x) = false)
    (hcount : l.countP p ≤ 1) :
    ∀ y ∈ updateFirst p f l, p y = true → q y = false := by
  induction l with
  | nil => intro y hy; simp [updateFirst] at hy
  | cons x xs ih =>
    intro y hy hpy
    by_cases hx : p x = true
    · have hzero : xs.countP p = 0 := by
        have := List.countP_cons_of_pos p xs hx ▸ hcount
        omega
      have hnone : ∀ z ∈ xs, ¬ p z = true := by
        intro z hz hpz
        have := List.countP_pos_iff.mpr ⟨z, hz, hpz⟩
        omega
      simp only [updateFirst, if_pos hx] at hy
      rcases List.mem_cons.mp hy with h | h
      · exact h ▸ hq x hx
      · exact absurd hpy (hnone y h)
    · simp only [updateFirst, if_neg hx] at hy
      rcases List.mem_cons.mp hy with h | h
      · exact absurd (h ▸ hpy) hx
      · have hc : xs.countP p ≤ 1 := by
          have := List.countP_cons_of_neg p xs (by simpa using hx) ▸ hcount
          omega
        exact ih hc y h hpy

theorem find?_map_ite (p : α → Bool) (g : α → α)
    (hg : ∀ x, p x = true → p (g x) = true) (l : List α) (k : α)
    (h : l.find? p = some k) :
    (l.map (fun r => if p r = true then g r else r)).find? p = some (g k) := by
  induction l with
  | nil => simp [List.find?] at h
  | cons y ys ih =>
    by_cases hy : p y = true
    · rw [List.find?_cons_of_pos _ hy] at h
      cases h
      simp only [List.map_cons, if_pos hy]
      exact List.find?_cons_of_pos _ (hg _ hy)
    · rw [List.find?_cons_of_neg _ hy] at h
      simp only [List.map_cons, if_neg hy]
      rw [List.find?_cons_of_neg _ hy]
      exact ih h

theorem find?_eq_some_of_unique (p : α → Bool) (l : List α) (k : α)
    (hk : k ∈ l) (hpk : p k = true)
    (huniq : ∀ x ∈ l, p x = true → x = k) : l.find? p = some k := by
  induction l with
  | nil => simp at hk
  | cons y ys ih =>
    by_cases hy : p y = true
    · rw [List.find?_cons_of_pos _ hy]
      exact congrArg some (huniq y (List.mem_cons_self y ys) hy)
    · rw [List.find?_cons_of_neg _ hy]
      have hk' : k ∈ ys := by
        rcases List.mem_cons.mp hk with h | h
        · exact absurd (h ▸ hpk) hy
        · exact h
      exact ih hk' fun x hx => huniq x (List.mem_cons_of_mem y hx)

theorem find?_middle_of_neg (p : α → Bool) (b : α) (hb : p b = false) :
    ∀ (l1 l2 : List α), (l1 ++ b :: l2).find? p = (l1 ++ l2).find? p := by
  intro l1 l2
  induction l1 with
  | nil =>
    simp only [List.nil_append]
    exact List.find?_cons_of_neg _ (by simp [hb])
  | cons x xs ih =>
    by_cases hx : p x = true
    · simp only [List.cons_append, List.find?_cons_of_pos _ hx]
    · simp only [List.cons_append, List.find?_cons_of_neg _ hx]
      exact ih

theorem find?_setByKey_self (key : α → Bool) (v : α) (l : List α)
    (hv : key v = true) : (setByKey key v l).find? key = some v := by
  induction l with
  | nil => simp [setByKey, List.find?_cons_of_pos _ hv]
  | cons x xs ih =>
    by_cases hx : key x = true
    · simp only [setByKey, if_pos hx]
      exact List.find?_cons_of_pos _ hv
    · simp only [setByKey, if_neg hx]
      rw [List.find?_cons_of_neg _ hx]
      exact ih

theorem find?_map_const (p : α → Bool) (v : α) (hv : p v = true)
    (l : List α) (k : α) (h : l.find? p = some k) :
    (l.map (fun r => if p r = true then v else r)).find? p = some v := by
  induction l with
  | nil => simp [List.find?] at h
  | cons y ys ih =>
    by_cases hy : p y = true
    · simp only [List.map_cons, if_pos hy]
      exact List.find?_cons_of_pos _ hv
    · rw [List.find?_cons_of_neg _ hy] at h
      simp only [List.map_cons, if_neg hy]
      rw [List.find?_cons_of_neg _ hy]
      exact ih h

theorem find?_append_of_none (p : α → Bool) (l1 l2 : List α)
    (h : l1.find? p = none) : (l1 ++ l2).find? p = l2.find? p := by
  induction l1 with
  | nil => simp
  | cons x xs ih =>
    by_cases hx : p x = true
    · rw [List.find?_cons_of_pos _ hx] at h; cases h
    · rw [List.find?_cons_of_neg _ hx] at h
      simp only [List.cons_append]
      rw [List.find?_cons_of_neg _ hx]
      exact ih h

/-- C1: refutation of the claim as stated.  A key at its cap
(`currentUsers = maxUsers = 1`): `incrementLicenseUsage` succeeds anyway — in
both backends — and pushes `currentUsers` to `2 > maxUsers`, where the claim
demands failure with the count unchanged. -/
theorem c1_counterexample :
    exhaustedKey.currentUsers ≥ exhaustedKey.maxUsers ∧
    (MemStorage.incrementLicenseUsage memExhausted 1).1 = true ∧
    ((MemStorage.incrementLicenseUsage memExhausted 1).2.licenseKeys.map
      LicenseKey.currentUsers) = [2] ∧
    (DatabaseStorage.incrementLicenseUsage [exhaustedKey] 1).1 = true ∧
    ((DatabaseStorage.incrementLicenseUsage [exhaustedKey] 1).2.map
      LicenseKey.currentUsers) = [2] := by decide

/-- C1 (amended): `incrementLicenseUsage` — in both `MemStorage` and
`DatabaseStorage` — increments `currentUsers` by exactly 1 whenever the key
exists, **regardless** of `maxUsers` (there is no compare-and-increment), and
returns `false` leaving the state unchanged only when the key is absent;
consequently `currentUsers` can exceed `maxUsers`. -/
theorem c1_amended : ∀ (s : MemState) (tbl : List LicenseKey) (i : Nat),
    (match s.licenseKeys.find? (fun k => k.id == i) with
     | none => MemStorage.incrementLicenseUsage s i = (false, s)
     | some k =>
       (MemStorage.incrementLicenseUsage s i).1 = true ∧
       ((MemStorage.incrementLicenseUsage s i).2.licenseKeys.find?
         (fun x => x.id == i))
         = some { k with currentUsers := k.currentUsers + 1 }) ∧
    (match tbl.find? (fun k => k.id == i) with
     | none => DatabaseStorage.incrementLicenseUsage tbl i = (false, tbl)
     | some k =>
       (DatabaseStorage.incrementLicenseUsage tbl i).1 = true ∧
       ((DatabaseStorage.incrementLicenseUsage tbl i).2.find?
         (fun x => x.id == i))
         = some { k with currentUsers := k.currentUsers + 1 }) := by
  intro s tbl i
  constructor
  · cases h : s.licenseKeys.find? (fun k => k.id == i) with
    | none => simp [MemStorage.incrementLicenseUsage, h]
    | some k =>
      refine ⟨by simp [MemStorage.incrementLicenseUsage, h], ?_⟩
      simp only [MemStorage.incrementLicenseUsage, h]
      exact find?_updateFirst_self (fun x => x.id == i)
        (fun x => { x with currentUsers := x.currentUsers + 1 })
        s.licenseKeys (fun x hx => hx) k h
  · cases h : tbl.find? (fun k => k.id == i) with
    | none => simp [DatabaseStorage.incrementLicenseUsage, h]
    | some k =>
      constructor
      · simp only [DatabaseStorage.incrementLicenseUsage, h]
        have hmem := List.mem_of_find?_eq_some h
        have hpk := List.find?_some h
        simp only [decide_eq_true_eq]
        exact List.countP_pos_iff.mpr ⟨k, hmem, hpk⟩
      · simp only [DatabaseStorage.incrementLicenseUsage, h]
        exact find?_map_ite (fun x => x.id == i)
          (fun r => { r with currentUsers := k.currentUsers + 1 })
          (fun x hx => hx) tbl k h

theorem validateLicenseKeyDB_some_elim (tbl : List LicenseKey) (key : String)
    (app now : Nat) (k : LicenseKey)
    (h : DatabaseStorage.validateLicenseKey tbl key app now = some k) :
    tbl.find? (fun x =>
        x.licenseKey == key && x.applicationId == app && x.isActive) = some k
      ∧ now ≤ k.expiresAt ∧ k.currentUsers < k.maxUsers := by
  unfold DatabaseStorage.validateLicenseKey at h
  split at h
  · cases h
  · rename_i l hf
    split_ifs at h with h1 h2
    cases h
    exact ⟨hf, by omega, by omega⟩

theorem validateLicenseKeyMem_some_elim (s : MemState) (key : String)
    (app now : Nat) (k : LicenseKey)
    (h : MemStorage.validateLicenseKey s key app now = some k) :
    s.licenseKeys.find? (fun x => x.licenseKey == key) = some k
      ∧ k.applicationId = app ∧ k.isActive = true ∧ now ≤ k.expiresAt := by
  unfold MemStorage.validateLicenseKey MemStorage.getLicenseKeyByKey at h
  split at h
  · cases h
  · rename_i l hf
    split_ifs at h with h1 h2
    cases h
    simp only [Bool.or_eq_true, bne_iff_ne, ne_eq, Bool.not_eq_true',
      not_or, not_not] at h1
    exact ⟨hf, h1.1, by simp [h1.2], by omega⟩

/-- C2: refutation of the claim as stated.  On the exported in-memory
backend, registering against a license key whose single seat is already
consumed still creates the `AppUser` (`createAppUserWithLicense` delegates to
`createAppUser` with no validation), and the key's `currentUsers` stays 1
instead of becoming "exactly 1 greater". -/
theorem c2_counterexample :
    exhaustedKey.currentUsers ≥ exhaustedKey.maxUsers ∧
    ((MemStorage.createAppUserWithLicense memExhausted 1 bobInsert 500).2.appUsers.map
      AppUser.username) = ["bob"] ∧
    ((MemStorage.createAppUserWithLicense memExhausted 1 bobInsert 500).2.licenseKeys.map
      LicenseKey.currentUsers) = [1] := by decide

/-- C2 (amended): on `DatabaseStorage` the claimed transactionality holds
sequentially — no user and no state change unless `validateLicenseKey`
succeeds, and on success the user is appended and the key's `currentUsers`
is exactly 1 greater (assuming unique row ids).  `MemStorage`'s
`createAppUserWithLicense`, however, ignores the license: it always creates
the user and never touches `licenseKeys`. -/
theorem c2_amended :
    ∀ (s : DBState) (m : MemState) (appId : Nat) (iu : InsertAppUser) (now : Nat),
    ((∀ a ∈ s.licenseKeys, ∀ b ∈ s.licenseKeys, a.id = b.id → a = b) →
      (match DatabaseStorage.validateLicenseKey s.licenseKeys
          (iu.licenseKey.getD "") appId now with
       | none =>
         DatabaseStorage.createAppUserWithLicense s appId iu now
           = (Except.error "Invalid or expired license key", s)
       | some k =>
         (∃ u, (DatabaseStorage.createAppUserWithLicense s appId iu now).1
                 = Except.ok u ∧
               (DatabaseStorage.createAppUserWithLicense s appId iu now).2.appUsers
                 = s.appUsers ++ [u]) ∧
         ((DatabaseStorage.createAppUserWithLicense s appId iu now).2.licenseKeys.find?
             (fun x => x.id == k.id))
           = some { k with currentUsers := k.currentUsers + 1 }))
    ∧ (MemStorage.createAppUserWithLicense m appId iu now).2.licenseKeys
        = m.licenseKeys
    ∧ (MemStorage.createAppUserWithLicense m appId iu now).2.appUsers
        = m.appUsers ++ [(MemStorage.createAppUserWithLicense m appId iu now).1] := by
  intro s m appId iu now
  refine ⟨?_, rfl, rfl⟩
  intro huniq
  cases h : DatabaseStorage.validateLicenseKey s.licenseKeys
      (iu.licenseKey.getD "") appId now with
  | none => simp [DatabaseStorage.createAppUserWithLicense, h]
  | some k =>
    have helim := validateLicenseKeyDB_some_elim _ _ _ _ _ h
    have hkmem : k ∈ s.licenseKeys := List.mem_of_find?_eq_some helim.1
    have hfind : s.licenseKeys.find? (fun x => x.id == k.id) = some k :=
      find?_eq_some_of_unique _ _ k hkmem (by simp)
        (fun x hx hpx => huniq x hx k hkmem (by simpa using hpx))
    constructor
    · simp only [DatabaseStorage.createAppUserWithLicense, h]
      exact ⟨_, rfl, rfl⟩
    · simp only [DatabaseStorage.createAppUserWithLicense, h]
      simp only [DatabaseStorage.incrementLicenseUsage, hfind]
      exact find?_map_ite (fun x => x.id == k.id)
        (fun r => { r with currentUsers := k.currentUsers + 1 })
        (fun x hx => hx) s.licenseKeys k hfind

/-- C2 (witness): on the database state with one free seat, registering
`bob` leaves the key with `currentUsers = 1`. -/
theorem c2_amended_witness :
    ((DatabaseStorage.createAppUserWithLicense dbFresh 1 bobInsert 500).2.licenseKeys.find?
        (fun x => x.id == 1))
      = some { freshKey with currentUsers := freshKey.currentUsers + 1 } := by
  have h := (c2_amended dbFresh memExhausted 1 bobInsert 500).1 (by decide)
  have e : DatabaseStorage.validateLicenseKey dbFresh.licenseKeys
      (bobInsert.licenseKey.getD "") 1 500 = some freshKey := by decide
  rw [e] at h
  exact h.2

/-- C3: refutation of the claim as stated.  On the exported in-memory
backend, a key at its seat cap (`currentUsers = maxUsers`) — active,
unexpired, right application — is still returned by `validateLicenseKey`,
where the claim demands `null`. -/
theorem c3_counterexample :
    exhaustedKey.currentUsers ≥ exhaustedKey.maxUsers ∧
    MemStorage.validateLicenseKey memExhausted "KEY-1" 1 500
      = some exhaustedKey := by decide

/-- C3 (amended): `DatabaseStorage.validateLicenseKey` returns the key
exactly when existence, application match, `isActive`, non-expiry and
`currentUsers < maxUsers` all hold (given key/application uniqueness);
`MemStorage.validateLicenseKey` checks only the first four — it omits the
seat-cap test (and looks the key up by its string alone). -/
theorem c3_amended :
    ∀ (s : MemState) (key : String) (app now : Nat),
    ((∀ a ∈ s.licenseKeys, ∀ b ∈ s.licenseKeys,
        a.licenseKey = key → b.licenseKey = key →
        a.applicationId = app → b.applicationId = app → a = b) →
      ∀ k, (DatabaseStorage.validateLicenseKey s.licenseKeys key app now = some k ↔
        (k ∈ s.licenseKeys ∧ k.licenseKey = key ∧ k.applicationId = app ∧
         k.isActive = true ∧ now ≤ k.expiresAt ∧ k.currentUsers < k.maxUsers)))
    ∧ ((∀ a ∈ s.licenseKeys, ∀ b ∈ s.licenseKeys,
          a.licenseKey = key → b.licenseKey = key → a = b) →
      ∀ k, (MemStorage.validateLicenseKey s key app now = some k ↔
        (k ∈ s.licenseKeys ∧ k.licenseKey = key ∧ k.applicationId = app ∧
         k.isActive = true ∧ now ≤ k.expiresAt))) := by
  intro s key app now
  constructor
  · intro huniq k
    constructor
    · intro h
      obtain ⟨hf, hexp, hseats⟩ := validateLicenseKeyDB_some_elim _ _ _ _ _ h
      have hmem := List.mem_of_find?_eq_some hf
      have hpk := List.find?_some hf
      simp only [Bool.and_eq_true, beq_iff_eq] at hpk
      exact ⟨hmem, hpk.1.1, hpk.1.2, hpk.2, hexp, hseats⟩
    · rintro ⟨hmem, hkey, happ, hact, hexp, hseats⟩
      have hfind : s.licenseKeys.find? (fun x =>
          x.licenseKey == key && x.applicationId == app && x.isActive)
            = some k := by
        refine find?_eq_some_of_unique _ _ k hmem (by simp [hkey, happ, hact]) ?_
        intro x hx hpx
        simp only [Bool.and_eq_true, beq_iff_eq] at hpx
        exact huniq x hx k hmem hpx.1.1 hkey hpx.1.2 happ
      simp only [DatabaseStorage.validateLicenseKey, hfind]
      rw [if_neg (by omega), if_neg (by omega)]
  · intro huniq k
    constructor
    · intro h
      obtain ⟨hf, happ, hact, hexp⟩ := validateLicenseKeyMem_some_elim _ _ _ _ _ h
      have hmem := List.mem_of_find?_eq_some hf
      have hpk := List.find?_some hf
      simp only [beq_iff_eq] at hpk
      exact ⟨hmem, hpk, happ, hact, hexp⟩
    · rintro ⟨hmem, hkey, happ, hact, hexp⟩
      have hfind : s.licenseKeys.find? (fun x => x.licenseKey == key) = some k := by
        refine find?_eq_some_of_unique _ _ k hmem (by simp [hkey]) ?_
        intro x hx hpx
        simp only [beq_iff_eq] at hpx
        exact huniq x hx k hmem hpx hkey
      simp only [MemStorage.validateLicenseKey, MemStorage.getLicenseKeyByKey,
        hfind]
      rw [if_neg (by simp [happ, hact]), if_neg (by omega)]

/-- C3 (witness): the database-side check does refuse the exhausted key. -/
theorem c3_amended_witness :
    DatabaseStorage.validateLicenseKey memExhausted.licenseKeys "KEY-1" 1 500
      = none := by
  have h := (c3_amended memExhausted "KEY-1" 1 500).1 (by decide)
  cases e : DatabaseStorage.validateLicenseKey memExhausted.licenseKeys
      "KEY-1" 1 500 with
  | none => rfl
  | some k =>
    rcases (h k).mp e with ⟨hmem, -, -, -, -, hlt⟩
    have hk : k = exhaustedKey := by
      simpa [memExhausted, MemState.empty] using hmem
    rw [hk] at hlt
    simp [exhaustedKey] at hlt

/-- C4: refutation of the claim as stated.  Deleting the user that holds the
seat of license key 1 removes the user but leaves the key's `currentUsers`
at 1 (the claim demands it be decremented to 0) — in both backends. -/
theorem c4_counterexample :
    seatHolder.licenseKeyId = some exhaustedKey.id ∧
    (MemStorage.deleteAppUser memSeatHeld 2).1 = true ∧
    (MemStorage.deleteAppUser memSeatHeld 2).2.appUsers = [] ∧
    ((MemStorage.deleteAppUser memSeatHeld 2).2.licenseKeys.map
      LicenseKey.currentUsers) = [1] ∧
    (DatabaseStorage.deleteAppUser [seatHolder] 2) = (true, []) := by decide

/-- C4 (amended): `deleteAppUser` — in both backends — removes the user and
reports whether it existed, and never modifies any license key: no seat is
released on deletion (`decrementLicenseUsage` is never called). -/
theorem c4_amended : ∀ (s : MemState) (tbl : List AppUser) (i : Nat),
    (MemStorage.deleteAppUser s i).1 = s.appUsers.any (fun u => u.id == i) ∧
    (MemStorage.deleteAppUser s i).2.licenseKeys = s.licenseKeys ∧
    (MemStorage.deleteAppUser s i).2.appUsers
      = s.appUsers.eraseP (fun u => u.id == i) ∧
    (DatabaseStorage.deleteAppUser tbl i).1 = tbl.any (fun u => u.id == i) ∧
    (DatabaseStorage.deleteAppUser tbl i).2
      = tbl.filter (fun u => !(u.id == i)) := by
  intro s tbl i
  refine ⟨rfl, rfl, rfl, ?_, rfl⟩
  rw [Bool.eq_iff_iff]
  simp [DatabaseStorage.deleteAppUser, List.any_eq_true, List.countP_pos_iff]

/-- C7: `endSession` returns `true` exactly when a session with the token
exists; an unknown token changes nothing; after a successful call the
deactivated session no longer shows up in `getActiveSessions` (for the
in-memory backend under token uniqueness — it deactivates only the first
match — and unconditionally for the database backend, which updates every
matching row). -/
theorem c7_endSession :
    ∀ (s : MemState) (token : String) (tbl : List ActiveSession),
    ((MemStorage.endSession s token).1
      = s.activeSessions.any (fun x => x.sessionToken == token)) ∧
    ((MemStorage.endSession s token).1 = false →
      (MemStorage.endSession s token).2 = s) ∧
    (s.activeSessions.countP (fun x => x.sessionToken == token) ≤ 1 →
      ∀ appId, ∀ y ∈ MemStorage.getActiveSessions
          (MemStorage.endSession s token).2 appId,
        (y.sessionToken == token) = false) ∧
    ((DatabaseStorage.endSession tbl token).1
      = tbl.any (fun x => x.sessionToken == token)) ∧
    (∀ appId, ∀ y ∈ DatabaseStorage.getActiveSessions
        (DatabaseStorage.endSession tbl token).2 appId,
      (y.sessionToken == token) = false) := by
  intro s token tbl
  refine ⟨?_, ?_, ?_, ?_, ?_⟩
  · cases h : s.activeSessions.find? (fun x => x.sessionToken == token) with
    | none =>
      simp only [MemStorage.endSession, h]
      symm
      rw [List.any_eq_false]
      intro x hx
      simpa using List.find?_eq_none.mp h x hx
    | some x =>
      simp only [MemStorage.endSession, h]
      symm
      rw [List.any_eq_true]
      refine ⟨x, List.mem_of_find?_eq_some h, ?_⟩
      have hx := List.find?_some h
      exact hx
  · intro hf
    cases h : s.activeSessions.find? (fun x => x.sessionToken == token) with
    | none => simp [MemStorage.endSession, h]
    | some x => simp [MemStorage.endSession, h] at hf
  · intro hcount appId y hy
    cases h : s.activeSessions.find? (fun x => x.sessionToken == token) with
    | none =>
      simp only [MemStorage.endSession, h] at hy
      have hmem := (List.mem_filter.mp hy).1
      simpa using List.find?_eq_none.mp h y hmem
    | some x =>
      simp only [MemStorage.endSession, h, MemStorage.getActiveSessions] at hy
      have hmem := (List.mem_filter.mp hy).1
      have hq := (List.mem_filter.mp hy).2
      simp only [Bool.and_eq_true] at hq
      by_cases hp : (y.sessionToken == token) = true
      · have hdeact := updateFirst_matches (fun z => z.sessionToken == token)
          (fun z => z.isActive) (fun z => { z with isActive := false })
          s.activeSessions (fun _ _ => rfl) hcount y hmem hp
        have h2 : y.isActive = false := hdeact
        simp [h2] at hq
      · simpa using hp
  · rw [Bool.eq_iff_iff]
    simp [DatabaseStorage.endSession, List.any_eq_true, List.countP_pos_iff]
  · intro appId y hy
    simp only [DatabaseStorage.endSession, DatabaseStorage.getActiveSessions]
      at hy
    have hmem := (List.mem_filter.mp hy).1
    have hq := (List.mem_filter.mp hy).2
    simp only [Bool.and_eq_true] at hq
    rcases List.mem_map.mp hmem with ⟨x, hx, hgx⟩
    by_cases hp : (x.sessionToken == token) = true
    · rw [if_pos hp] at hgx
      rw [← hgx] at hq
      cases hq.2
    · rw [if_neg hp] at hgx
      rw [← hgx]
      simpa using hp

/-- C7 (witness): an unknown token leaves the store unchanged, and after
ending `"tok-1"` in a two-session store the surviving active session `sessC`
does not carry that token. -/
theorem c7_endSession_witness :
    (MemStorage.endSession memSess "nope").2 = memSess ∧
    (sessC.sessionToken == "tok-1") = false :=
  ⟨(c7_endSession memSess "nope" []).2.1 (by decide),
   (c7_endSession memSess2 "tok-1" []).2.2.1 (by decide) 1 sessC (by decide)⟩

/-- C8: `upsertUser` — in both backends — stores and returns `role = 'owner'`
with the fixed seven-element permission set exactly when the input's email is
`mohitsindhu121@gmail.com`, and `role = 'user'` with no permissions
otherwise, ignoring any `role`/`permissions` supplied in the input (the
statement quantifies over inputs with arbitrary `role`/`permissions`
fields). -/
theorem c8_upsertUser :
    ∀ (s : MemState) (tbl : List User) (u : UpsertUser) (now : Nat),
    (MemStorage.upsertUser s u now).1.role
      = (if u.email = some ownerEmail then "owner" else "user") ∧
    (MemStorage.upsertUser s u now).1.permissions
      = (if u.email = some ownerEmail then ownerPermissions else []) ∧
    ((MemStorage.upsertUser s u now).2.users.find? (fun x => x.id == u.id))
      = some (MemStorage.upsertUser s u now).1 ∧
    (DatabaseStorage.upsertUser tbl u now).1.role
      = (if u.email = some ownerEmail then "owner" else "user") ∧
    (DatabaseStorage.upsertUser tbl u now).1.permissions
      = (if u.email = some ownerEmail then ownerPermissions else []) ∧
    ((DatabaseStorage.upsertUser tbl u now).2.find? (fun x => x.id == u.id))
      = some (DatabaseStorage.upsertUser tbl u now).1 := by
  intro s tbl u now
  refine ⟨?_, ?_, ?_, ?_, ?_, ?_⟩
  · by_cases h : u.email = some ownerEmail <;> simp [MemStorage.upsertUser, h]
  · by_cases h : u.email = some ownerEmail <;> simp [MemStorage.upsertUser, h]
  · simp only [MemStorage.upsertUser]
    exact find?_setByKey_self _ _ _ (by simp)
  · cases hf : tbl.find? (fun x => x.id == u.id) with
    | none =>
      by_cases h : u.email = some ownerEmail <;>
        simp [DatabaseStorage.upsertUser, hf, h]
    | some old =>
      by_cases h : u.email = some ownerEmail <;>
        simp [DatabaseStorage.upsertUser, hf, h]
  · cases hf : tbl.find? (fun x => x.id == u.id) with
    | none =>
      by_cases h : u.email = some ownerEmail <;>
        simp [DatabaseStorage.upsertUser, hf, h]
    | some old =>
      by_cases h : u.email = some ownerEmail <;>
        simp [DatabaseStorage.upsertUser, hf, h]
  · cases hf : tbl.find? (fun x => x.id == u.id) with
    | none =>
      simp only [DatabaseStorage.upsertUser, hf]
      rw [find?_append_of_none _ _ _ hf]
      exact List.find?_cons_of_pos _ (by simp)
    | some old =>
      simp only [DatabaseStorage.upsertUser, hf]
      refine find?_map_const _ _ ?_ tbl old hf
      have hx := List.find?_some hf
      exact hx

/-- C9: blacklist checks are application-scoped in every implementation:
a match is reported only for an entry with exactly the queried
`(applicationId, type, value)` triple (`DatabaseStorage` additionally
requires `isActive`); the in-memory check reports a match iff such an entry
exists; and inserting an entry recorded under a different (or no)
application id anywhere in the list never changes the result. -/
theorem c9_checkBlacklist :
    ∀ (s : MemState) (entries l1 l2 : List BlacklistEntry)
      (b : BlacklistEntry) (app : Nat) (t v : String),
    (∀ e, MemStorage.checkBlacklist s app t v = some e →
      e ∈ s.blacklist ∧ e.applicationId = some app ∧ e.type = t ∧ e.value = v) ∧
    ((MemStorage.checkBlacklist s app t v).isSome = true ↔
      ∃ e ∈ s.blacklist,
        e.applicationId = some app ∧ e.type = t ∧ e.value = v) ∧
    (MemStorage.isBlacklisted entries app t v = true ↔
      ∃ e ∈ entries, e.applicationId = some app ∧ e.type = t ∧ e.value = v) ∧
    (b.applicationId ≠ some app →
      MemStorage.checkBlacklist { s with blacklist := l1 ++ b :: l2 } app t v
        = MemStorage.checkBlacklist { s with blacklist := l1 ++ l2 } app t v) ∧
    (∀ e, DatabaseStorage.checkBlacklist entries app t v = some e →
      e ∈ entries ∧ e.applicationId = some app ∧ e.type = t ∧ e.value = v ∧
        e.isActive = true) := by
  intro s entries l1 l2 b app t v
  refine ⟨?_, ?_, ?_, ?_, ?_⟩
  · intro e h
    have hmem := List.mem_of_find?_eq_some h
    have hp := List.find?_some h
    simp only [Bool.and_eq_true, beq_iff_eq] at hp
    exact ⟨hmem, hp.1.1, hp.1.2, hp.2⟩
  · unfold MemStorage.checkBlacklist
    rw [List.find?_isSome]
    constructor
    · rintro ⟨e, hmem, hp⟩
      simp only [Bool.and_eq_true, beq_iff_eq] at hp
      exact ⟨e, hmem, hp.1.1, hp.1.2, hp.2⟩
    · rintro ⟨e, hmem, h1, h2, h3⟩
      exact ⟨e, hmem, by simp [h1, h2, h3]⟩
  · unfold MemStorage.isBlacklisted
    rw [List.any_eq_true]
    constructor
    · rintro ⟨e, hmem, hp⟩
      simp only [Bool.and_eq_true, beq_iff_eq] at hp
      exact ⟨e, hmem, hp.1.1, hp.1.2, hp.2⟩
    · rintro ⟨e, hmem, h1, h2, h3⟩
      exact ⟨e, hmem, by simp [h1, h2, h3]⟩
  · intro hb
    unfold MemStorage.checkBlacklist
    exact find?_middle_of_neg _ b (by simp [hb]) l1 l2
  · intro e h
    have hmem := List.mem_of_find?_eq_some h
    have hp := List.find?_some h
    simp only [Bool.and_eq_true, beq_iff_eq] at hp
    exact ⟨hmem, hp.1.1.1, hp.1.1.2, hp.1.2, hp.2⟩

/-- C9 (witness): an entry blacklisted for application 2 does not affect
lookups for application 1. -/
theorem c9_checkBlacklist_witness :
    MemStorage.checkBlacklist
        { MemState.empty with blacklist := [blkOther] } 1 "ip" "1.2.3.4"
      = MemStorage.checkBlacklist
        { MemState.empty with blacklist := [] } 1 "ip" "1.2.3.4" :=
  (c9_checkBlacklist MemState.empty [] [] [] blkOther 1 "ip" "1.2.3.4").2.2.2.1
    (by decide)

theorem mem_insertDescByCreatedAt (x z : ActivityLog)
    (l : List ActivityLog) :
    z ∈ insertDescByCreatedAt x l ↔ z = x ∨ z ∈ l := by
  induction l with
  | nil => simp [insertDescByCreatedAt]
  | cons y ys ih =>
    by_cases hc : x.createdAt ≤ y.createdAt
    · simp only [insertDescByCreatedAt, if_pos hc, List.mem_cons, ih]
      try tauto
    · simp only [insertDescByCreatedAt, if_neg hc, List.mem_cons]
      try tauto

theorem pairwise_insertDescByCreatedAt (x : ActivityLog)
    (l : List ActivityLog)
    (h : l.Pairwise (fun a b => b.createdAt ≤ a.createdAt)) :
    (insertDescByCreatedAt x l).Pairwise
      (fun a b => b.createdAt ≤ a.createdAt) := by
  induction l with
  | nil => simp [insertDescByCreatedAt]
  | cons y ys ih =>
    rcases List.pairwise_cons.mp h with ⟨hy, hys⟩
    by_cases hc : x.createdAt ≤ y.createdAt
    · simp only [insertDescByCreatedAt, if_pos hc]
      refine List.pairwise_cons.mpr ⟨?_, ih hys⟩
      intro z hz
      rcases (mem_insertDescByCreatedAt x z ys).mp hz with h' | h'
      · subst h'; exact hc
      · exact hy z h'
    · simp only [insertDescByCreatedAt, if_neg hc]
      refine List.pairwise_cons.mpr ⟨?_, h⟩
      intro z hz
      rcases List.mem_cons.mp hz with h' | h'
      · subst h'; omega
      · have := hy z h'
        omega

theorem mem_sortDescByCreatedAt (z : ActivityLog) (l : List ActivityLog) :
    z ∈ sortDescByCreatedAt l ↔ z ∈ l := by
  induction l with
  | nil => simp [sortDescByCreatedAt]
  | cons y ys ih =>
    simp only [sortDescByCreatedAt, mem_insertDescByCreatedAt, ih,
      List.mem_cons]

theorem pairwise_sortDescByCreatedAt (l : List ActivityLog) :
    (sortDescByCreatedAt l).Pairwise
      (fun a b => b.createdAt ≤ a.createdAt) := by
  induction l with
  | nil => simp [sortDescByCreatedAt]
  | cons y ys ih =>
    exact pairwise_insertDescByCreatedAt y _ ih

/-- C10: on the exported in-memory storage, `getActivityLogs` returns only
logs of the queried application, sorted newest-first by creation time, at
most `limit` of them, and the omitted-argument form uses the declared
default `limit = 100`. -/
theorem c10_getActivityLogs : ∀ (s : MemState) (app limit : Nat),
    (∀ l ∈ MemStorage.getActivityLogs s app limit,
      l ∈ s.activityLogs ∧ l.applicationId = some app) ∧
    (MemStorage.getActivityLogs s app limit).Pairwise
      (fun a b => b.createdAt ≤ a.createdAt) ∧
    (MemStorage.getActivityLogs s app limit).length ≤ limit ∧
    MemStorage.getActivityLogsDefault s app
      = MemStorage.getActivityLogs s app 100 := by
  intro s app limit
  refine ⟨?_, ?_, ?_, rfl⟩
  · intro l hl
    have h1 := List.mem_of_mem_take hl
    have h2 := (mem_sortDescByCreatedAt l _).mp h1
    have h3 := List.mem_filter.mp h2
    refine ⟨h3.1, ?_⟩
    have := h3.2
    simpa using this
  · exact List.Pairwise.sublist (List.take_sublist _ _)
      (pairwise_sortDescByCreatedAt _)
  · exact List.length_take_le _ _

/-- C10 (witness): in a three-log store, the older application-1 log is
returned and carries application id 1. -/
theorem c10_getActivityLogs_witness :
    logA ∈ memLogs.activityLogs ∧ logA.applicationId = some 1 :=
  (c10_getActivityLogs memLogs 1 100).1 logA (by decide)

/-- C5: refutation of the claim as stated.  For a Discord-shaped destination
URL the body actually sent is the provider-shaped serialization, but the
`X-Webhook-Signature` header was computed over the generic payload
serialization, so the header does not equal `sha256=` followed by the keyed
digest of the body sent. -/
theorem c5_counterexample :
    (buildRequest discordHook loginPayload).body
        ≠ Json.stringify loginPayload.toJson ∧
    lookupHeader (buildRequest discordHook loginPayload).headers
        "X-Webhook-Signature"
      = some ("sha256="
          ++ generateSignature (Json.stringify loginPayload.toJson) "s3cret") ∧
    lookupHeader (buildRequest discordHook loginPayload).headers
        "X-Webhook-Signature"
      ≠ some ("sha256="
          ++ generateSignature (buildRequest discordHook loginPayload).body
              "s3cret") := by
  refine ⟨by decide, by decide, by decide⟩

/-- C5 (amended): whenever a (truthy) secret is configured, the
`X-Webhook-Signature` header equals `sha256=` followed by the keyed digest
of `JSON.stringify(payload)` — the generic serialization; that string is
also the body sent exactly for destination URLs that are not
Discord/Slack-recognized, so only for those does the signature cover the
body on the wire. -/
theorem c5_amended :
    ∀ (w : Webhook) (p : WebhookPayload) (sec : String),
    jsOrNullStr w.secret = some sec →
    lookupHeader (buildRequest w p).headers "X-Webhook-Signature"
      = some ("sha256=" ++ generateSignature (Json.stringify p.toJson) sec) ∧
    (strContains w.url "discord.com" = false →
     strContains w.url "discordapp.com" = false →
     strContains w.url "slack.com" = false →
      (buildRequest w p).body = Json.stringify p.toJson) := by
  intro w p sec hsec
  constructor
  · simp [buildRequest, hsec, lookupHeader]
  · intro h1 h2 h3
    simp [buildRequest, hsec, h1, h2, h3]

/-- C5 (witness): for an unrecognized destination host the signature does
cover the body sent. -/
theorem c5_amended_witness :
    lookupHeader (buildRequest genericHook loginPayload).headers
        "X-Webhook-Signature"
      = some ("sha256="
          ++ generateSignature (Json.stringify loginPayload.toJson) "s3cret") ∧
    (buildRequest genericHook loginPayload).body
      = Json.stringify loginPayload.toJson :=
  ⟨(c5_amended genericHook loginPayload "s3cret" (by decide)).1,
   (c5_amended genericHook loginPayload "s3cret" (by decide)).2
     (by decide) (by decide) (by decide)⟩

/-- C6: `logAndNotify` never surfaces an error — every storage rejection and
every webhook-delivery failure is caught and swallowed — and `sendWebhook`
resolves to `false` instead of throwing, both on a non-2xx response and on a
transport error (and to `response.ok` in general). -/
theorem c6_neverThrows :
    ∀ (env : NotifyEnv) (userId : String) (applicationId : Nat)
      (event : String) (userData : Option UserData)
      (options : Option LogOptions) (w : Webhook) (p : WebhookPayload)
      (st : Nat) (stx e : String),
    logAndNotify env userId applicationId event userData options
      = Except.ok () ∧
    sendWebhookRun w p (FetchResult.resp st stx)
      = Except.ok (responseOk st) ∧
    sendWebhookRun w p (FetchResult.fail e) = Except.ok false := by
  intro env userId appId event ud opts w p st stx e
  refine ⟨?_, ?_, ?_⟩
  · unfold logAndNotify
    cases env.getUserWebhooks userId with
    | error er => rfl
    | ok ws => simp
  · unfold sendWebhookRun sendWebhookTry
    cases hr : responseOk st <;> simp [hr]
  · rfl

end NexxAuth
